import Mathlib

/-!
# Verification of `gem_s2gnn` dataset and metric code

Shallow embedding of the parts of the repository that the checked claims
are about:

* `graphgps/loader/dataset/wrapped_md17.py` — `normalize_md17_energy`,
  `WrappedMD17.get`, `WrappedMD17.get_idx_split`;
* `graphgps/loader/master_loader.py` — `join_dataset_splits`;
* `graphgps/logger.py` — `CustomLogger.update_stats` / `CustomLogger.basic`,
  `eval_spearmanr`, `eval_opa`, `eval_one_minus_slowdown`, `eval_err_top_k`.

Modelling conventions:

* Python / NumPy floating point values are embedded as exact rationals `ℚ`;
  decimal literals such as `1e-10` are read at face value (`1/10^10`).
* A NumPy float that may be NaN (undefined-label marker) is embedded as
  `Option ℚ`, with `none` playing the role of NaN.
* A computation that raises a Python exception (e.g. `min()` of an empty
  selection) is embedded as an `Option`-returning function, with `none`
  modelling the raise.
* `int(0.8 * total)` and `int(0.1 * total)` are embedded as the natural
  number floors `8 * total / 10` and `total / 10`; for the magnitudes the
  code uses (`total = 1000`) the float product rounds to the same value.
* Tensors and arrays carrying per-item data are embedded as Lean lists;
  `l.getD i 0` embeds the (in-range at every call site) index `l[i]`.
-/

/-- The split dictionary `{'train': ..., 'val': ..., 'test': ...}` returned by
`WrappedMD17.get_idx_split` (wrapped_md17.py lines 119-123). -/
structure SplitMap where
  train : List ℕ
  val : List ℕ
  test : List ℕ
deriving Repr, DecidableEq

/-- `WrappedMD17.get_idx_split` (wrapped_md17.py lines 102-125), on the path
where `self.splits is None`.  The code shuffles `list(range(self.len()))` in
place with the *global, unseeded* NumPy generator `np.random.shuffle`; the
shuffled list is therefore an input of this embedding (`shuffled`), standing
for whatever permutation the ambient RNG state produced.  `total` embeds
`self.len()` (hard-coded to `1000` in the class).  The slice bounds are
`num_train = int(0.8 * total)` and `num_val = int(0.1 * total)`. -/
def get_idx_split (total : ℕ) (shuffled : List ℕ) : SplitMap :=
  let num_train : ℕ := 8 * total / 10
  let num_val : ℕ := total / 10
  { train := shuffled.take num_train
    val := (shuffled.drop num_train).take num_val
    test := shuffled.drop (num_train + num_val) }

/-- `normalize_md17_energy(dataset, train_indices)` (wrapped_md17.py lines
10-16): sums `dataset[idx].energy` over `train_indices` and divides by
`len(train_indices)`.  The dataset is embedded by its list of raw energies. -/
def normalize_md17_energy (energies : List ℚ) (train_indices : List ℕ) : ℚ :=
  (train_indices.map (fun idx => energies.getD idx 0)).sum / train_indices.length

/-- The record built by `WrappedMD17.get` (wrapped_md17.py lines 90-98).
Only the target channel `y = md17_data.energy - self.mean_energy` is
tracked; the geometric fields (`x`, `pos`, `edge_index`, `edge_attr`,
`edge_weight`, `z`) are copied through from the transform unchanged and play
no role in the checked claims. -/
structure EncRecord where
  y : ℚ
deriving Repr, DecidableEq

/-- The fetch-and-transform chain of `WrappedMD17.get` on a cache miss
(wrapped_md17.py lines 81-98): fetch `self.md17_dataset[idx]`, apply the
radius-graph / distance transform, and build the `Data` record with
`y = energy - mean_energy`. -/
def WrappedMD17.fetchRecord (energies : List ℚ) (mean_energy : ℚ) (idx : ℕ) :
    EncRecord :=
  { y := energies.getD idx 0 - mean_energy }

/-- One call of `WrappedMD17.get(idx)` (wrapped_md17.py lines 72-100) on the
standalone path where `self._data` is unset.  `data_list` embeds
`self._data_list` (already initialised to `self.len() * [None]`, which the
method does on first call).  Returns the record handed to the caller, the
cache state after the call, and whether the fetch-and-transform chain ran.
The source checks `self._data_list[idx] is not None` and returns
`copy.copy(self._data_list[idx])` on a hit; on a miss it computes
`encapsulated_data` and returns it — it never assigns
`self._data_list[idx]`, so the cache state is returned unchanged. -/
def WrappedMD17.get (fetch : ℕ → EncRecord) (data_list : List (Option EncRecord))
    (idx : ℕ) : EncRecord × List (Option EncRecord) × Bool :=
  match data_list.getD idx none with
  | some r => (r, data_list, false)
  | none => (fetch idx, data_list, true)

/-- The `WrappedMD17` state set up by `__init__` (wrapped_md17.py lines
40-53): it computes `splits = self.get_idx_split()` (over `self.len() = 1000`
indices, using whatever permutation the ambient RNG produced), takes
`train_indices = splits['train']` (the key `'train'` is always present), and
stores `self.mean_energy = normalize_md17_energy(self.md17_dataset,
train_indices)` together with `self.splits = splits`. -/
structure WrappedMD17Model where
  energies : List ℚ
  splits : SplitMap
  mean_energy : ℚ
deriving Repr

/-- `WrappedMD17.__init__` (wrapped_md17.py lines 40-53); `shuffled` stands
for the ambient-RNG permutation consumed by `get_idx_split`. -/
def WrappedMD17.init (energies : List ℚ) (shuffled : List ℕ) : WrappedMD17Model :=
  let splits := get_idx_split 1000 shuffled
  { energies := energies
    splits := splits
    mean_energy := normalize_md17_energy energies splits.train }

/-- `join_dataset_splits(datasets)` (master_loader.py lines 826-850) on three
datasets embedded as their item lists: concatenates the items in
train, val, test order and records
`split_idxs = [list(range(n1)), list(range(n1, n1+n2)),
list(range(n1+n2, n1+n2+n3))]`. -/
def join_dataset_splits {α : Type} (d1 d2 d3 : List α) :
    List α × List (List ℕ) :=
  let n1 := d1.length
  let n2 := d2.length
  let n3 := d3.length
  (d1 ++ d2 ++ d3,
   [List.range n1, List.range' n1 n2, List.range' (n1 + n2) n3])

/-- The accumulator fields of `CustomLogger` touched by `update_stats` and
read back by `basic` (logger.py). `_true`/`_pred` tensors, custom stats and
wall-clock fields are independent of the loss-averaging claim and are not
tracked. -/
structure LoggerState where
  iter : ℕ
  size_current : ℕ
  loss : ℚ
  lr : ℚ
deriving Repr, DecidableEq

/-- The state right after `Logger.reset`: all accumulators zero. -/
def LoggerState.reset : LoggerState :=
  { iter := 0, size_current := 0, loss := 0, lr := 0 }

/-- `CustomLogger.update_stats` (logger.py lines 251-290) on the generic
(non-`ogbg-code2`) path: `batch_size = true.shape[0]`, then
`self._iter += 1`, `self._size_current += batch_size`,
`self._loss += loss * batch_size`, `self._lr = lr`. -/
def CustomLogger.update_stats (st : LoggerState) (batch_size : ℕ) (loss lr : ℚ) :
    LoggerState :=
  { st with
    iter := st.iter + 1
    size_current := st.size_current + batch_size
    loss := st.loss + loss * batch_size
    lr := lr }

/-- The `'loss'` entry assembled by `CustomLogger.basic` (logger.py lines
55-65): `self._loss / self._size_current` (the source additionally rounds the
quotient to `max(8, cfg.round)` decimal places for display). -/
def CustomLogger.basicLoss (st : LoggerState) : ℚ :=
  st.loss / st.size_current

/-- A same-shape pair of NumPy arrays `(y_true, y_pred)` as fed to
`eval_spearmanr` (logger.py lines 364-378): either two 1-dimensional vectors,
or two 2-dimensional arrays given by the list of their column pairs
(`y_true[:, i]` zipped with `y_pred[:, i]`).  Entries are `Option ℚ`: `none`
embeds a NaN (undefined-label marker). -/
inductive SpArrPair where
  | d1 (t p : List (Option ℚ))
  | d2 (cols : List (List (Option ℚ) × List (Option ℚ)))
deriving Repr

/-- The per-column filter of the 2-d branch of `eval_spearmanr` (logger.py
lines 373-376): `is_labeled = ~np.isnan(y_true[:, i])`, then both columns are
restricted to the labeled rows. -/
def filterLabeled (tcol pcol : List (Option ℚ)) :
    List (Option ℚ) × List (Option ℚ) :=
  let rows := (tcol.zip pcol).filter (fun r => r.1.isSome)
  (rows.map Prod.fst, rows.map Prod.snd)

/-- The list of vector pairs that `eval_spearmanr` (logger.py lines 364-378)
passes to `scipy.stats.spearmanr`: the 1-d branch passes `(y_true, y_pred)`
through unfiltered; the 2-d branch passes each column pair restricted to the
rows where the true value is labeled. -/
def spearman_inputs : SpArrPair → List (List (Option ℚ) × List (Option ℚ))
  | .d1 t p => [(t, p)]
  | .d2 cols => cols.map (fun c => filterLabeled c.1 c.2)

/-- `eval_spearmanr` (logger.py lines 364-378), parameterised by the external
correlation routine `rho` (`scipy.stats.spearmanr(...)[0]`): collects the
per-column coefficients into `res_list` and returns
`sum(res_list) / len(res_list)`. -/
def eval_spearmanr (rho : List (Option ℚ) → List (Option ℚ) → ℚ)
    (input : SpArrPair) : ℚ :=
  let res_list := (spearman_inputs input).map (fun c => rho c.1 c.2)
  res_list.sum / res_list.length

/-- `eval_opa(y_true, y_pred)` (logger.py lines 380-388) under the NumPy
semantics of its call site (`CustomLogger.ranking` converts the tensors with
`.numpy()` before the call, so `pairwise_true.nonzero()[0]` is the full index
array of qualifying positions).  With `n = y_pred.shape[0]`, the flattened
pair index `t ∈ [0, n²)` encodes `i_idx[t] = t % n` and `j_idx[t] = t / n`;
qualifying positions are those with `y_true[i] > y_true[j]`, the numerator
counts qualifying positions with `y_pred[i] - y_pred[j] > 0`, and the
denominator is the qualifying count plus `1e-10`. -/
def eval_opa (y_true y_pred : List ℚ) : ℚ :=
  let n := y_pred.length
  let opa_indices := (List.range (n * n)).filter
    (fun t => y_true.getD (t % n) 0 > y_true.getD (t / n) 0)
  let opa_preds := opa_indices.map
    (fun t => y_pred.getD (t % n) 0 - y_pred.getD (t / n) 0)
  ((opa_preds.filter (fun d => 0 < d)).length : ℚ) /
    ((opa_preds.length : ℚ) + 1 / 10 ^ 10)

/-- `np.argpartition(y_pred, k)[:m]` as used by `eval_one_minus_slowdown` and
`eval_err_top_k`: indices of (some) `m` smallest-predicted candidates.
NumPy's introselect leaves the tie order unspecified; the embedding fixes the
deterministic refinement that sorts the index range stably by
(value, index). -/
def argsortq (l : List ℚ) : List ℕ :=
  (List.insertionSort (fun a b => a ≤ b)
    ((List.range l.length).map (fun i => toLex ((l.getD i 0, i) : ℚ × ℕ)))).map
    (fun p => (ofLex p).2)

/-- `eval_one_minus_slowdown(y_true, y_pred, k=5)` (logger.py lines 391-394):
`k = min(y_pred.shape[0] - 1, k)` (Python subtraction: `-1` on an empty
input, for which `np.argpartition` raises), then
`2 - np.divide(y_true[np.argpartition(y_pred, k)[:k]].min(), y_true.min())`.
`none` embeds a raised exception: `np.argpartition` with an out-of-range
`kth` on the empty input, or `.min()` of an empty selection (the case
`y_pred.shape[0] == 1`, where `k` becomes `0` and the slice `[:0]` is
empty). -/
def eval_one_minus_slowdown (y_true y_pred : List ℚ) (k : ℕ) : Option ℚ :=
  if y_pred.length = 0 then none
  else
    let k := min (y_pred.length - 1) k
    let sel := ((argsortq y_pred).take k).map (fun i => y_true.getD i 0)
    match sel.min?, y_true.min? with
    | some m, some best => some (2 - m / best)
    | _, _ => none

/-- `eval_err_top_k(y_true, y_pred, k=5)` (logger.py lines 401-407):
if `y_true.shape[0] <= k` then `pred_runtime = y_true.min()`, else
`pred_runtime = y_true[np.argpartition(y_pred, k)[:k]].min()`; the result is
`np.divide(pred_runtime - best_runtime, best_runtime)` with
`best_runtime = y_true.min()`.  `none` embeds the raise of `.min()` on an
empty array. -/
def eval_err_top_k (y_true y_pred : List ℚ) (k : ℕ) : Option ℚ :=
  match y_true.min? with
  | none => none
  | some best =>
    if y_true.length ≤ k then
      some ((best - best) / best)
    else
      match (((argsortq y_pred).take k).map (fun i => y_true.getD i 0)).min? with
      | none => none
      | some m => some ((m - best) / best)

/-- Definition following the spec's words for OPA, to be compared with the
code's `eval_opa`: "over all ordered pairs `(i, j)` of predictions in an
item, restrict to pairs where `true[i] > true[j]`; accuracy is the fraction
of those pairs where `pred[i] > pred[j]` holds too.  Denominator is the
count of qualifying pairs (add a small epsilon ...)". -/
def orderedPairs (n : ℕ) : List (ℕ × ℕ) :=
  (List.range n).flatMap (fun j => (List.range n).map (fun i => (i, j)))

/-- Spec-side OPA: qualifying pairs, agreement fraction, epsilon-guarded
denominator (see `orderedPairs`). -/
def opaSpec (y_true y_pred : List ℚ) : ℚ :=
  let qual := (orderedPairs y_true.length).filter
    (fun ij => y_true.getD ij.1 0 > y_true.getD ij.2 0)
  let agree := qual.filter (fun ij => y_pred.getD ij.1 0 > y_pred.getD ij.2 0)
  (agree.length : ℚ) / ((qual.length : ℚ) + 1 / 10 ^ 10)

/-! ## Helper lemmas -/

/-- Counting a predicate over the flattened pair encoding `t ↦ (t % n, t / n)`
of `[0, m*n)` agrees with counting it over the explicit list of ordered
pairs. -/
theorem countP_range_mul (n : ℕ) (Q : ℕ → ℕ → Bool) :
    ∀ m, (List.range (m * n)).countP (fun t => Q (t % n) (t / n)) =
      ((List.range m).flatMap (fun j => (List.range n).map (fun i => (i, j)))).countP
        (fun ij => Q ij.1 ij.2)
  | 0 => by simp
  | m + 1 => by
    rcases Nat.eq_zero_or_pos n with hn | hn
    · subst hn; simp [List.flatMap]
    · have ih := countP_range_mul n Q m
      rw [Nat.succ_mul, List.range_add, List.countP_append, ih,
        List.range_succ, List.flatMap_append, List.countP_append]
      congr 1
      rw [List.countP_map, List.flatMap_cons, List.flatMap_nil,
        List.append_nil, List.countP_map]
      refine List.countP_congr (fun i hi => ?_)
      have hilt : i < n := List.mem_range.mp hi
      have hmod : (m * n + i) % n = i := by
        rw [Nat.mul_comm, Nat.mul_add_mod]; exact Nat.mod_eq_of_lt hilt
      have hdiv : (m * n + i) / n = m := by
        rw [Nat.mul_comm, Nat.mul_add_div hn, Nat.div_eq_of_lt hilt, Nat.add_zero]
      simp [Function.comp, hmod, hdiv]

/-- The fold of `CustomLogger.update_stats` accumulates the size- and
loss-weighted running sums. -/
theorem foldl_update_stats (batches : List (ℕ × ℚ)) :
    ∀ st : LoggerState,
      ((batches.foldl (fun s b => CustomLogger.update_stats s b.1 b.2 0) st).loss =
        st.loss + (batches.map (fun b => b.2 * (b.1 : ℚ))).sum) ∧
      ((batches.foldl (fun s b => CustomLogger.update_stats s b.1 b.2 0) st).size_current =
        st.size_current + (batches.map Prod.fst).sum) := by
  induction batches with
  | nil => intro st; simp
  | cons b bs ih =>
    intro st
    obtain ⟨ihl, ihs⟩ := ih (CustomLogger.update_stats st b.1 b.2 0)
    refine ⟨?_, ?_⟩
    · rw [List.foldl_cons, ihl]; simp [CustomLogger.update_stats]; ring
    · rw [List.foldl_cons, ihs]; simp [CustomLogger.update_stats]; omega

/-- `argsortq` returns a permutation of the index range. -/
theorem argsortq_perm (l : List ℚ) : (argsortq l).Perm (List.range l.length) := by
  unfold argsortq
  have h1 := (List.perm_insertionSort (fun a b : Lex (ℚ × ℕ) => a ≤ b)
    ((List.range l.length).map (fun i => toLex ((l.getD i 0, i) : ℚ × ℕ))))
  have h2 := h1.map (fun p : Lex (ℚ × ℕ) => (ofLex p).2)
  refine h2.trans (List.Perm.of_eq ?_)
  rw [List.map_map]
  have hid : ((fun p : Lex (ℚ × ℕ) => (ofLex p).2) ∘
      fun i => toLex ((l.getD i 0, i) : ℚ × ℕ)) = fun i => i := rfl
  rw [hid, List.map_id']

/-- Every entry of `argsortq l` is an index below `l.length`. -/
theorem argsortq_mem_lt (l : List ℚ) {a : ℕ} (ha : a ∈ argsortq l) :
    a < l.length :=
  List.mem_range.mp ((argsortq_perm l).mem_iff.mp ha)

/-- `argsortq` has no duplicate indices. -/
theorem argsortq_nodup (l : List ℚ) : (argsortq l).Nodup :=
  ((argsortq_perm l).nodup_iff).mpr (List.nodup_range _)

/-- `argsortq` has one entry per element of `l`. -/
theorem argsortq_length (l : List ℚ) : (argsortq l).length = l.length := by
  rw [(argsortq_perm l).length_eq, List.length_range]

/-- The key property of the `argpartition` prefix: every index kept in the
first `k` positions of `argsortq l` has a value no larger than any index in
the remaining positions. -/
theorem argsortq_take_le (l : List ℚ) (k : ℕ) {a b : ℕ}
    (ha : a ∈ (argsortq l).take k) (hb : b ∈ (argsortq l).drop k) :
    l.getD a 0 ≤ l.getD b 0 := by
  classical
  set pairs := (List.range l.length).map (fun i => toLex ((l.getD i 0, i) : ℚ × ℕ))
    with hpairs
  set s := List.insertionSort (fun a b : Lex (ℚ × ℕ) => a ≤ b) pairs with hs
  have hsorted : List.Sorted (fun a b : Lex (ℚ × ℕ) => a ≤ b) s :=
    List.sorted_insertionSort _ _
  have hmem_shape : ∀ p ∈ s, p = toLex ((l.getD (ofLex p).2 0, (ofLex p).2) : ℚ × ℕ) := by
    intro p hp
    have : p ∈ pairs := (List.perm_insertionSort _ _).mem_iff.mp hp
    obtain ⟨i, _, rfl⟩ := List.mem_map.mp this
    rfl
  have hargs : argsortq l = s.map (fun p : Lex (ℚ × ℕ) => (ofLex p).2) := rfl
  rw [hargs, ← List.map_take] at ha
  rw [hargs, ← List.map_drop] at hb
  obtain ⟨pa, hpa, rfl⟩ := List.mem_map.mp ha
  obtain ⟨pb, hpb, rfl⟩ := List.mem_map.mp hb
  have hcross : pa ≤ pb := by
    have hpw : List.Pairwise (fun a b : Lex (ℚ × ℕ) => a ≤ b) (s.take k ++ s.drop k) := by
      rw [List.take_append_drop]; exact hsorted
    exact (List.pairwise_append.mp hpw).2.2 pa hpa pb hpb
  have hpa' := hmem_shape pa (List.mem_of_mem_take hpa)
  have hpb' := hmem_shape pb (List.mem_of_mem_drop hpb)
  rw [hpa', hpb'] at hcross
  rcases (Prod.Lex.le_iff _ _).mp hcross with hlt | ⟨heq, _⟩
  · exact le_of_lt hlt
  · exact le_of_eq heq

/-! ## Claim theorems -/

/-- C5: `join_dataset_splits` on datasets of sizes `n1, n2, n3` concatenates
the items in train, val, test order, yields a collection of length
`n1 + n2 + n3`, and records `split_idxs` whose three lists contain exactly
the indices `[0, n1)`, `[n1, n1+n2)` and `[n1+n2, n1+n2+n3)`; in particular
sizes `(3, 2, 4)` give length `9` and
`split_idxs = [[0,1,2], [3,4], [5,6,7,8]]`, with no randomness involved. -/
theorem C5_join_dataset_splits {α : Type} (d1 d2 d3 : List α) (m : ℕ) :
    (join_dataset_splits d1 d2 d3).1 = d1 ++ d2 ++ d3 ∧
    (join_dataset_splits d1 d2 d3).1.length = d1.length + d2.length + d3.length ∧
    ((m ∈ ((join_dataset_splits d1 d2 d3).2.getD 0 []) ↔ m < d1.length) ∧
     (m ∈ ((join_dataset_splits d1 d2 d3).2.getD 1 []) ↔
        d1.length ≤ m ∧ m < d1.length + d2.length) ∧
     (m ∈ ((join_dataset_splits d1 d2 d3).2.getD 2 []) ↔
        d1.length + d2.length ≤ m ∧
          m < d1.length + d2.length + d3.length)) ∧
    (join_dataset_splits ([10, 11, 12] : List ℕ) [20, 21] [30, 31, 32, 33]).1.length = 9 ∧
    (join_dataset_splits ([10, 11, 12] : List ℕ) [20, 21] [30, 31, 32, 33]).2 =
      [[0, 1, 2], [3, 4], [5, 6, 7, 8]] := by
  refine ⟨rfl, by simp [join_dataset_splits]; omega, ⟨?_, ?_, ?_⟩, by decide, by decide⟩
  · simp [join_dataset_splits, List.mem_range]
  · show m ∈ List.range' d1.length d2.length ↔ _
    rw [List.mem_range']
    constructor
    · rintro ⟨i, hi, rfl⟩; omega
    · intro h; exact ⟨m - d1.length, by omega, by omega⟩
  · show m ∈ List.range' (d1.length + d2.length) d3.length ↔ _
    rw [List.mem_range']
    constructor
    · rintro ⟨i, hi, rfl⟩; omega
    · intro h; exact ⟨m - (d1.length + d2.length), by omega, by omega⟩

/-- C9: accumulating batches of sizes `b_i` with losses `l_i` through
`CustomLogger.update_stats` leaves `(Σ b_i * l_i, Σ b_i)` in the running
accumulators, so the loss reported by `CustomLogger.basic` is the
item-count-weighted average `Σ b_i * l_i / Σ b_i`; in particular batch sizes
`(4, 6)` with losses `(1.0, 2.0)` report `1.6 = 8/5`. -/
theorem C9_batch_weighted_loss (batches : List (ℕ × ℚ)) :
    ((batches.foldl (fun s b => CustomLogger.update_stats s b.1 b.2 0)
        LoggerState.reset).loss = (batches.map (fun b => b.2 * (b.1 : ℚ))).sum) ∧
    ((batches.foldl (fun s b => CustomLogger.update_stats s b.1 b.2 0)
        LoggerState.reset).size_current = (batches.map Prod.fst).sum) ∧
    (CustomLogger.basicLoss
        (batches.foldl (fun s b => CustomLogger.update_stats s b.1 b.2 0)
          LoggerState.reset) =
      (batches.map (fun b => b.2 * (b.1 : ℚ))).sum /
        (((batches.map Prod.fst).sum : ℕ) : ℚ)) ∧
    CustomLogger.basicLoss
        ([((4 : ℕ), (1 : ℚ)), (6, 2)].foldl
          (fun s b => CustomLogger.update_stats s b.1 b.2 0) LoggerState.reset) =
      8 / 5 := by
  obtain ⟨hl, hs⟩ := foldl_update_stats batches LoggerState.reset
  refine ⟨?_, ?_, ?_,
    by norm_num [CustomLogger.update_stats, CustomLogger.basicLoss, LoggerState.reset]⟩
  · rw [hl]; simp [LoggerState.reset]
  · rw [hs]; simp [LoggerState.reset]
  · unfold CustomLogger.basicLoss
    rw [hl, hs]; simp [LoggerState.reset]

/-- C1 (code bug): `WrappedMD17.get` initialises and consults the per-index
cache `self._data_list` but never assigns to it, so the fetch-and-transform
chain runs again on every repeated access of the same index.  Starting from
the freshly initialised cache, the first and the second call of `get(0)`
both take the recompute branch (flag `true`), the cache is still
unpopulated after both calls, and the two returned records agree only
because the chain is deterministic. -/
theorem C1_get_never_stores :
    (WrappedMD17.get (WrappedMD17.fetchRecord (List.replicate 1000 (5 : ℚ)) 2)
        (List.replicate 1000 none) 0).2.2 = true ∧
    (WrappedMD17.get (WrappedMD17.fetchRecord (List.replicate 1000 (5 : ℚ)) 2)
        (WrappedMD17.get (WrappedMD17.fetchRecord (List.replicate 1000 (5 : ℚ)) 2)
          (List.replicate 1000 none) 0).2.1 0).2.2 = true ∧
    (WrappedMD17.get (WrappedMD17.fetchRecord (List.replicate 1000 (5 : ℚ)) 2)
        (WrappedMD17.get (WrappedMD17.fetchRecord (List.replicate 1000 (5 : ℚ)) 2)
          (List.replicate 1000 none) 0).2.1 0).2.1 =
      List.replicate 1000 none := by
  refine ⟨rfl, rfl, rfl⟩

/-- C2 (code bug): `WrappedMD17.get_idx_split` shuffles with the global,
unseeded NumPy RNG and exposes no seed parameter, so the split it returns is
a function of the ambient RNG permutation: two instances over the same
`total = 1000` whose ambient shuffles differ (both legal permutations of
`range(1000)`) receive different SplitMaps. -/
theorem C2_split_depends_on_ambient_rng :
    (List.range 1000).Perm (List.range 1000) ∧
    ((List.range 1000).reverse).Perm (List.range 1000) ∧
    get_idx_split 1000 (List.range 1000) ≠
      get_idx_split 1000 ((List.range 1000).reverse) := by
  refine ⟨List.Perm.refl _, (List.reverse_perm _), ?_⟩
  intro h
  have h0 := congrArg (fun s => s.train[0]?) h
  simp only [get_idx_split] at h0
  rw [List.getElem?_take_of_lt (by norm_num), List.getElem?_range (by norm_num),
    List.getElem?_take_of_lt (by norm_num),
    List.getElem?_reverse (by simp), List.length_range,
    List.getElem?_range (by norm_num)] at h0
  exact absurd h0 (by norm_num)

/-- C7 (code bug): on a degenerate item with a single candidate,
`eval_one_minus_slowdown` clamps `k` to `0`, selects an empty candidate set
and calls `.min()` on it, which raises (embedded as `none`), while the
neighbouring top-k metrics survive the same item (`eval_err_top_k` returns
`0`, `eval_opa` returns its epsilon-guarded `0`). -/
theorem C7_slowdown_raises_on_single_candidate :
    eval_one_minus_slowdown [2] [1] 5 = none ∧
    eval_err_top_k [2] [1] 5 = some 0 ∧
    eval_opa [2] [1] = 0 := by
  refine ⟨by simp [eval_one_minus_slowdown],
    by norm_num [eval_err_top_k, List.min?],
    by norm_num [eval_opa, List.range_succ]⟩

/-- C3: whenever the ambient shuffle delivers a permutation of
`[0, total)`, the SplitMap returned by `get_idx_split` partitions
`{0, ..., total-1}`: the concatenation of train, val and test indices is a
permutation of `range total` (every index exactly once), with sizes
`⌊0.8 * total⌋`, `⌊0.1 * total⌋` and the remainder, summing to `total`. -/
theorem C3_split_partition (total : ℕ) (shuffled : List ℕ)
    (h : shuffled.Perm (List.range total)) :
    ((get_idx_split total shuffled).train ++ (get_idx_split total shuffled).val ++
        (get_idx_split total shuffled).test).Perm (List.range total) ∧
    (get_idx_split total shuffled).train.length = 8 * total / 10 ∧
    (get_idx_split total shuffled).val.length = total / 10 ∧
    (get_idx_split total shuffled).test.length =
      total - 8 * total / 10 - total / 10 ∧
    (get_idx_split total shuffled).train.length +
        (get_idx_split total shuffled).val.length +
        (get_idx_split total shuffled).test.length = total := by
  have hlen : shuffled.length = total := by
    rw [h.length_eq, List.length_range]
  have e8 : 10 * (8 * total / 10) + 8 * total % 10 = 8 * total :=
    Nat.div_add_mod _ _
  have e1 : 10 * (total / 10) + total % 10 = total := Nat.div_add_mod _ _
  have m8 : 8 * total % 10 < 10 := Nat.mod_lt _ (by norm_num)
  have m1 : total % 10 < 10 := Nat.mod_lt _ (by norm_num)
  have hsplit : shuffled.take (8 * total / 10) ++
      ((shuffled.drop (8 * total / 10)).take (total / 10) ++
        shuffled.drop (8 * total / 10 + total / 10)) = shuffled := by
    rw [← List.drop_drop, List.take_append_drop, List.take_append_drop]
  refine ⟨?_, ?_, ?_, ?_, ?_⟩
  · rw [List.append_assoc]
    show (shuffled.take (8 * total / 10) ++
      ((shuffled.drop (8 * total / 10)).take (total / 10) ++
        shuffled.drop (8 * total / 10 + total / 10))).Perm (List.range total)
    rw [hsplit]; exact h
  · show (shuffled.take (8 * total / 10)).length = _
    rw [List.length_take, hlen]; omega
  · show ((shuffled.drop (8 * total / 10)).take (total / 10)).length = _
    rw [List.length_take, List.length_drop, hlen]; omega
  · show (shuffled.drop (8 * total / 10 + total / 10)).length = _
    rw [List.length_drop, hlen]; omega
  · show (shuffled.take (8 * total / 10)).length +
      ((shuffled.drop (8 * total / 10)).take (total / 10)).length +
      (shuffled.drop (8 * total / 10 + total / 10)).length = total
    rw [List.length_take, List.length_take, List.length_drop, List.length_drop,
      hlen]
    omega

/-- Witness for C3 at the concrete input `total = 10` with the shuffle
`[3, 1, 4, 0, 5, 9, 2, 6, 8, 7]`. -/
theorem C3_split_partition_witness :
    ([3, 1, 4, 0, 5, 9, 2, 6, 8, 7] : List ℕ).Perm (List.range 10) ∧
    (((get_idx_split 10 [3, 1, 4, 0, 5, 9, 2, 6, 8, 7]).train ++
        (get_idx_split 10 [3, 1, 4, 0, 5, 9, 2, 6, 8, 7]).val ++
        (get_idx_split 10 [3, 1, 4, 0, 5, 9, 2, 6, 8, 7]).test).Perm
          (List.range 10) ∧
      (get_idx_split 10 [3, 1, 4, 0, 5, 9, 2, 6, 8, 7]).train.length = 8 * 10 / 10 ∧
      (get_idx_split 10 [3, 1, 4, 0, 5, 9, 2, 6, 8, 7]).val.length = 10 / 10 ∧
      (get_idx_split 10 [3, 1, 4, 0, 5, 9, 2, 6, 8, 7]).test.length =
        10 - 8 * 10 / 10 - 10 / 10 ∧
      (get_idx_split 10 [3, 1, 4, 0, 5, 9, 2, 6, 8, 7]).train.length +
          (get_idx_split 10 [3, 1, 4, 0, 5, 9, 2, 6, 8, 7]).val.length +
          (get_idx_split 10 [3, 1, 4, 0, 5, 9, 2, 6, 8, 7]).test.length = 10) :=
  ⟨by decide, C3_split_partition 10 [3, 1, 4, 0, 5, 9, 2, 6, 8, 7] (by decide)⟩

/-- C4: the `mean_energy` stored at construction equals the arithmetic mean
of the raw energies at exactly the train-split indices (never val or test —
it is a function of the train-selected energies alone), the target `y` of
every record built by `get` equals the raw energy minus this mean, and two
datasets whose train selections pick identical energy lists have identical
`mean_energy`, whatever their val/test content. -/
theorem C4_normalization_train_only (e1 e2 : List ℚ) (sh1 sh2 : List ℕ)
    (h : (WrappedMD17.init e1 sh1).splits.train.map (fun i => e1.getD i 0) =
      (WrappedMD17.init e2 sh2).splits.train.map (fun i => e2.getD i 0)) :
    (WrappedMD17.init e1 sh1).mean_energy =
      ((WrappedMD17.init e1 sh1).splits.train.map (fun i => e1.getD i 0)).sum /
        ((WrappedMD17.init e1 sh1).splits.train.length : ℚ) ∧
    (∀ idx, WrappedMD17.fetchRecord e1 (WrappedMD17.init e1 sh1).mean_energy idx =
      ⟨e1.getD idx 0 - (WrappedMD17.init e1 sh1).mean_energy⟩) ∧
    (WrappedMD17.init e1 sh1).mean_energy = (WrappedMD17.init e2 sh2).mean_energy := by
  refine ⟨rfl, fun idx => rfl, ?_⟩
  show normalize_md17_energy e1 (get_idx_split 1000 sh1).train =
    normalize_md17_energy e2 (get_idx_split 1000 sh2).train
  have h' : (get_idx_split 1000 sh1).train.map (fun i => e1.getD i 0) =
      (get_idx_split 1000 sh2).train.map (fun i => e2.getD i 0) := h
  unfold normalize_md17_energy
  rw [← List.length_map ((get_idx_split 1000 sh1).train) (fun i => e1.getD i 0),
    ← List.length_map ((get_idx_split 1000 sh2).train) (fun i => e2.getD i 0), h']

/-- Witness for C4: two identical datasets trivially share their train
energies; the instantiated conclusion follows by applying the theorem. -/
theorem C4_normalization_train_only_witness :
    ((WrappedMD17.init [3, 7, 9] [2, 0, 1]).splits.train.map
        (fun i => ([3, 7, 9] : List ℚ).getD i 0) =
      (WrappedMD17.init [3, 7, 9] [2, 0, 1]).splits.train.map
        (fun i => ([3, 7, 9] : List ℚ).getD i 0)) ∧
    ((WrappedMD17.init [3, 7, 9] [2, 0, 1]).mean_energy =
      ((WrappedMD17.init [3, 7, 9] [2, 0, 1]).splits.train.map
          (fun i => ([3, 7, 9] : List ℚ).getD i 0)).sum /
        (((WrappedMD17.init [3, 7, 9] [2, 0, 1]).splits.train.length : ℕ) : ℚ) ∧
      (∀ idx, WrappedMD17.fetchRecord [3, 7, 9]
          (WrappedMD17.init [3, 7, 9] [2, 0, 1]).mean_energy idx =
        ⟨([3, 7, 9] : List ℚ).getD idx 0 -
          (WrappedMD17.init [3, 7, 9] [2, 0, 1]).mean_energy⟩) ∧
      (WrappedMD17.init [3, 7, 9] [2, 0, 1]).mean_energy =
        (WrappedMD17.init [3, 7, 9] [2, 0, 1]).mean_energy) :=
  ⟨rfl, C4_normalization_train_only [3, 7, 9] [3, 7, 9] [2, 0, 1] [2, 0, 1] rfl⟩

/-- C6 (counterexample): at the spec's own example, `eval_opa` does not
return exactly `1.0` — the epsilon in the denominator makes the result
`3 / (3 + 1e-10) < 1`. -/
theorem C6_opa_example_not_one : eval_opa [1, 3, 2] [1, 2, 3] ≠ 1 := by
  norm_num [eval_opa, List.range_succ]

/-- C6 (amended): for equal-length vectors, `eval_opa` equals the spec's
formula `opaSpec` — the number of ordered pairs `(i, j)` with
`true[i] > true[j]` and `pred[i] > pred[j]`, divided by the count of pairs
with `true[i] > true[j]` plus `1e-10`.  At `true = [1, 3, 2]`,
`pred = [1, 2, 3]` there are 3 qualifying pairs, but the prediction agrees
only on `(1,0)` and `(2,0)` — for `(1,2)`, `pred[1] = 2 < 3 = pred[2]` — so
the result is `2 / (3 + 1e-10)`, not `1.0`. -/
theorem C6_opa_fraction (y_true y_pred : List ℚ) (h : y_true.length = y_pred.length) :
    eval_opa y_true y_pred = opaSpec y_true y_pred ∧
    eval_opa [1, 3, 2] [1, 2, 3] = 2 / (3 + 1 / 10 ^ 10) := by
  refine ⟨?_, by norm_num [eval_opa, List.range_succ]⟩
  simp only [eval_opa, opaSpec, orderedPairs]
  rw [h]
  simp only [← List.countP_eq_length_filter, List.countP_map, List.countP_filter,
    List.length_map, Function.comp]
  have k1 := countP_range_mul y_pred.length
    (fun i j => decide (0 < y_pred.getD i 0 - y_pred.getD j 0) &&
      decide (y_true.getD i 0 > y_true.getD j 0)) y_pred.length
  have k2 := countP_range_mul y_pred.length
    (fun i j => decide (y_true.getD i 0 > y_true.getD j 0)) y_pred.length
  simp only [] at k1 k2
  rw [k1, k2]
  have hcong :
      ((List.range y_pred.length).flatMap
        (fun j => (List.range y_pred.length).map (fun i => (i, j)))).countP
        (fun ij => decide (0 < y_pred.getD ij.1 0 - y_pred.getD ij.2 0) &&
          decide (y_true.getD ij.1 0 > y_true.getD ij.2 0)) =
      ((List.range y_pred.length).flatMap
        (fun j => (List.range y_pred.length).map (fun i => (i, j)))).countP
        (fun ij => decide (y_pred.getD ij.1 0 > y_pred.getD ij.2 0) &&
          decide (y_true.getD ij.1 0 > y_true.getD ij.2 0)) := by
    refine List.countP_congr (fun ij _ => ?_)
    simp [sub_pos]
  rw [hcong]

/-- Witness for C6 at the spec's example vectors. -/
theorem C6_opa_fraction_witness :
    ([1, 3, 2] : List ℚ).length = ([1, 2, 3] : List ℚ).length ∧
    (eval_opa [1, 3, 2] [1, 2, 3] = opaSpec [1, 3, 2] [1, 2, 3] ∧
      eval_opa [1, 3, 2] [1, 2, 3] = 2 / (3 + 1 / 10 ^ 10)) :=
  ⟨rfl, C6_opa_fraction [1, 3, 2] [1, 2, 3] rfl⟩

/-- C8: for a nonempty item with more than `k` candidates (`k ≥ 1`, as at
every call site), `eval_err_top_k` returns `(m - best) / best` where `m` is
the minimum true value over a set `sel` of exactly `k` distinct in-range
candidates each of whose predictions is no larger than that of any candidate
outside `sel` (the `argpartition` prefix), and `best` is the global true
minimum; for an item with at most `k` candidates it returns `0` by
construction, e.g. `true = [5, 2, 9]` with `k = 5`. -/
theorem C8_err_top_k (y_true y_pred : List ℚ) (k : ℕ)
    (hne : y_true ≠ []) (hlen : y_true.length = y_pred.length) (hk : 0 < k) :
    (y_true.length ≤ k → eval_err_top_k y_true y_pred k = some 0) ∧
    (k < y_true.length →
      ∃ sel : List ℕ, sel.length = k ∧ sel.Nodup ∧
        (∀ a ∈ sel, a < y_true.length) ∧
        (∀ a ∈ sel, ∀ b < y_true.length, b ∉ sel →
          y_pred.getD a 0 ≤ y_pred.getD b 0) ∧
        ∃ m best, (sel.map (fun i => y_true.getD i 0)).min? = some m ∧
          y_true.min? = some best ∧
          eval_err_top_k y_true y_pred k = some ((m - best) / best)) ∧
    eval_err_top_k [5, 2, 9] [1, 1, 1] 5 = some 0 := by
  have hbest : ∃ best, y_true.min? = some best := by
    cases hb : y_true.min? with
    | none => exact absurd (List.min?_eq_none_iff.mp hb) hne
    | some b => exact ⟨b, rfl⟩
  obtain ⟨best, hb⟩ := hbest
  refine ⟨?_, ?_, by norm_num [eval_err_top_k, List.min?]⟩
  · intro hle
    simp only [eval_err_top_k, hb, if_pos hle]
    rw [sub_self, zero_div]
  · intro hgt
    refine ⟨(argsortq y_pred).take k, ?_, ?_, ?_, ?_, ?_⟩
    · rw [List.length_take, argsortq_length, ← hlen]
      omega
    · exact (argsortq_nodup y_pred).sublist (List.take_sublist _ _)
    · intro a ha
      rw [hlen]
      exact argsortq_mem_lt y_pred (List.mem_of_mem_take ha)
    · intro a ha b hblt hbnot
      have hbmem : b ∈ argsortq y_pred := by
        rw [(argsortq_perm y_pred).mem_iff, List.mem_range, ← hlen]
        exact hblt
      have hbdrop : b ∈ (argsortq y_pred).drop k := by
        rcases (List.mem_append.mp (by
          rw [List.take_append_drop]; exact hbmem :
            b ∈ (argsortq y_pred).take k ++ (argsortq y_pred).drop k)) with h1 | h2
        · exact absurd h1 hbnot
        · exact h2
      exact argsortq_take_le y_pred k ha hbdrop
    · have hlen' : (((argsortq y_pred).take k).map (fun i => y_true.getD i 0)).length = k := by
        rw [List.length_map, List.length_take, argsortq_length, ← hlen,
          Nat.min_eq_left (le_of_lt hgt)]
      have hsel_ne : ((argsortq y_pred).take k).map (fun i => y_true.getD i 0) ≠ [] := by
        intro hnil
        rw [hnil] at hlen'
        simp only [List.length_nil] at hlen'
        omega
      have hm : ∃ m, (((argsortq y_pred).take k).map (fun i => y_true.getD i 0)).min? =
          some m := by
        cases hmm : (((argsortq y_pred).take k).map (fun i => y_true.getD i 0)).min? with
        | none => exact absurd (List.min?_eq_none_iff.mp hmm) hsel_ne
        | some m => exact ⟨m, rfl⟩
      obtain ⟨m, hm⟩ := hm
      refine ⟨m, best, hm, hb, ?_⟩
      simp only [eval_err_top_k, hb, hm]
      rw [if_neg (show ¬ y_true.length ≤ k from by omega)]

/-- Witness for C8 at `true = [5, 2, 9]`, `pred = [1, 1, 1]`, `k = 5`
(the at-most-`k` degenerate case) — hypotheses discharged concretely. -/
theorem C8_err_top_k_witness :
    ([5, 2, 9] : List ℚ) ≠ [] ∧
    ([5, 2, 9] : List ℚ).length = ([1, 1, 1] : List ℚ).length ∧ 0 < 5 ∧
    ((([5, 2, 9] : List ℚ).length ≤ 5 →
        eval_err_top_k [5, 2, 9] [1, 1, 1] 5 = some 0) ∧
      (5 < ([5, 2, 9] : List ℚ).length →
        ∃ sel : List ℕ, sel.length = 5 ∧ sel.Nodup ∧
          (∀ a ∈ sel, a < ([5, 2, 9] : List ℚ).length) ∧
          (∀ a ∈ sel, ∀ b < ([5, 2, 9] : List ℚ).length, b ∉ sel →
            ([1, 1, 1] : List ℚ).getD a 0 ≤ ([1, 1, 1] : List ℚ).getD b 0) ∧
          ∃ m best, (sel.map (fun i => ([5, 2, 9] : List ℚ).getD i 0)).min? = some m ∧
            ([5, 2, 9] : List ℚ).min? = some best ∧
            eval_err_top_k [5, 2, 9] [1, 1, 1] 5 = some ((m - best) / best)) ∧
      eval_err_top_k [5, 2, 9] [1, 1, 1] 5 = some 0) :=
  ⟨by simp, rfl, by norm_num,
    C8_err_top_k [5, 2, 9] [1, 1, 1] 5 (by simp) rfl (by norm_num)⟩

/-- C10 (counterexample): on a 1-dimensional input whose ground truth
contains an undefined-label marker, `eval_spearmanr` passes the vectors to
the correlation routine unfiltered — the NaN entry reaches the correlation
input, contradicting the claim that undefined entries are always excluded
first. -/
theorem C10_one_d_passes_nan_unfiltered :
    ¬ (∀ c ∈ spearman_inputs
        (.d1 [none, some 1, some 2] [some 3, some 1, some 2]),
        ∀ v ∈ c.1, v ≠ none) := by
  intro hall
  exact (hall ([none, some 1, some 2], [some 3, some 1, some 2])
    (by simp [spearman_inputs]) none (by simp)) rfl

/-- C10 (amended): `eval_spearmanr` excludes undefined ground-truth entries
per column before the correlation only on the multi-column (2-d) path — on
the 1-d path the vectors are passed through unfiltered — and on both paths
the returned value is the arithmetic mean of the per-column coefficients
(`sum(res_list) / len(res_list)`; for a 1-d input that is the coefficient of
the single unfiltered pair). -/
theorem C10_spearman_filter_and_mean
    (rho : List (Option ℚ) → List (Option ℚ) → ℚ)
    (cols : List (List (Option ℚ) × List (Option ℚ)))
    (t p : List (Option ℚ)) (c : List (Option ℚ) × List (Option ℚ))
    (v : Option ℚ) (hc : c ∈ spearman_inputs (.d2 cols)) (hv : v ∈ c.1) :
    v ≠ none ∧
    eval_spearmanr rho (.d2 cols) =
      ((spearman_inputs (.d2 cols)).map (fun c => rho c.1 c.2)).sum /
        (((spearman_inputs (.d2 cols)).map (fun c => rho c.1 c.2)).length : ℚ) ∧
    eval_spearmanr rho (.d1 t p) = rho t p := by
  refine ⟨?_, rfl, ?_⟩
  · simp only [spearman_inputs, List.mem_map] at hc
    obtain ⟨col, _, rfl⟩ := hc
    simp only [filterLabeled, List.mem_map] at hv
    obtain ⟨r, hr, rfl⟩ := hv
    have := (List.mem_filter.mp hr).2
    simp only [Option.isSome_iff_exists] at this
    obtain ⟨x, hx⟩ := this
    simp [hx]
  · simp [eval_spearmanr, spearman_inputs]

/-- Witness for C10's amended theorem at a concrete 2-d input with one NaN
row in the first column, and a concrete 1-d input. -/
theorem C10_spearman_filter_and_mean_witness :
    (([some 4, some 6], [some 1, some 2]) ∈ spearman_inputs
        (.d2 [([none, some 4, some 6], [some 0, some 1, some 2])]) ∧
      (some 4 : Option ℚ) ∈ ([some 4, some 6] : List (Option ℚ))) ∧
    ((some 4 : Option ℚ) ≠ none ∧
      eval_spearmanr (fun a b => (a.length : ℚ) + b.length)
          (.d2 [([none, some 4, some 6], [some 0, some 1, some 2])]) =
        ((spearman_inputs
            (.d2 [([none, some 4, some 6], [some 0, some 1, some 2])])).map
          (fun c => ((c.1.length : ℚ) + c.2.length))).sum /
          (((spearman_inputs
              (.d2 [([none, some 4, some 6], [some 0, some 1, some 2])])).map
            (fun c => ((c.1.length : ℚ) + c.2.length))).length : ℚ) ∧
      eval_spearmanr (fun a b => (a.length : ℚ) + b.length)
          (.d1 [none, some 1] [some 2, some 3]) =
        (([none, some 1] : List (Option ℚ)).length : ℚ) +
          (([some 2, some 3] : List (Option ℚ)).length : ℚ)) :=
  ⟨⟨by simp [spearman_inputs, filterLabeled], by simp⟩,
    C10_spearman_filter_and_mean (fun a b => (a.length : ℚ) + b.length)
      [([none, some 4, some 6], [some 0, some 1, some 2])]
      [none, some 1] [some 2, some 3] ([some 4, some 6], [some 1, some 2])
      (some 4) (by simp [spearman_inputs, filterLabeled]) (by simp)⟩
